import Mathlib

/-!
Shallow embedding of the FJC judge metadata extractor
(src/Code/fjcJudgeMetaDataExtractor.py).

The script reads the Federal Judicial Center commission-centered CSV and
emits one normalized record per appellate commission: normalized judge
name, circuit code, appointing-party indicator, and start/end years.

Modelling conventions:
- A CSV row produced by csv.DictReader is a record of optional string
  fields; a field is `none` when the corresponding column is absent from
  the input header (dict lookup via `row[k]` then raises KeyError, which
  we render as the whole step returning `none`), and `some s` otherwise.
  Lookups written `row.get(k, defaultEmpty)` in the source become
  `Option.getD`.
- The Party cell of a commission dict holds, over its lifetime, either a
  raw string, an int (0 or 1), or Python None; `PVal` is that sum.
- `previous_commission` starts as a dict holding only a Judge key; its
  Party key is therefore optional (`PrevComm.party : Option PVal`), and
  reading a missing key fails the step (the KeyError of line 93).
- `datetime.now().year` is threaded in as the parameter `now`.
- Aborting the run (an uncaught exception) is `none` at the run level.
-/

namespace FJC

/-- A Python value that can sit in the Party cell of a commission dict:
the raw text from the CSV, the mapped integer indicator, or None. -/
inductive PVal where
  | pstr : String → PVal
  | pint : Nat → PVal
  | pnone : PVal
  deriving DecidableEq, Repr

/-- One row of the input CSV as produced by csv.DictReader: each field is
`some` when the column exists in the header (all rows of a given file
agree on this), `none` when it is missing. -/
structure Row where
  judgeName : Option String
  seatID : Option String
  courtName : Option String
  party : Option String
  commissionDate : Option String
  recessDate : Option String
  terminationDate : Option String
  deriving DecidableEq, Repr

/-- The commission dict built for one row.  Judge, SeatID, Circuit and
Party are always assigned (lines 85-106 of the source); StartYear and
EndYear are assigned only when the row has a nonempty start-date text
(lines 112-115), hence the outer `Option` marking key presence.  A
present StartYear may still be Python None (unparseable date), hence the
inner `Option`; a present EndYear is always an int because of the
`or datetime.now().year` default. -/
structure Commission where
  judge : String
  seatID : String
  circuit : String
  party : PVal
  startYear : Option (Option Nat)
  endYear : Option Nat
  deriving DecidableEq, Repr

/-- The carried `previous_commission` state, restricted to the two keys
the loop ever reads from it (Judge at line 92, Party at line 93).  The
initial value `{ Judge: emptyString }` has no Party key. -/
structure PrevComm where
  judge : String
  party : Option PVal
  deriving DecidableEq, Repr

/-- The initial `previous_commission = { Judge: emptyString }` of line 80. -/
def pInit : PrevComm := ⟨"", none⟩

/-- View of a finished commission as the next `previous_commission`
(line 138 stores the whole dict; only Judge and Party are ever read). -/
def Commission.toPrev (c : Commission) : PrevComm := ⟨c.judge, some c.party⟩

/-- Line 85: `row[JudgeName].replace(",", "<")`.  Python str.replace with
a one-character pattern and one-character replacement substitutes every
occurrence, i.e. it is a character map. -/
def normName (s : String) : String :=
  ⟨s.data.map (fun c => if c = ',' then '<' else c)⟩

/-- The 14-entry `court_map` constant (lines 38-53). -/
def courtMap : String → Option String
  | "U.S. Court of Appeals for the District of Columbia Circuit" => some "DC"
  | "U.S. Court of Appeals for the Eighth Circuit" => some "8"
  | "U.S. Court of Appeals for the Eleventh Circuit" => some "11"
  | "U.S. Court of Appeals for the Federal Circuit" => some "FC"
  | "U.S. Court of Appeals for the Fifth Circuit" => some "5"
  | "U.S. Court of Appeals for the First Circuit" => some "1"
  | "U.S. Court of Appeals for the Fourth Circuit" => some "4"
  | "U.S. Court of Appeals for the Ninth Circuit" => some "9"
  | "U.S. Court of Appeals for the Second Circuit" => some "2"
  | "U.S. Court of Appeals for the Seventh Circuit" => some "7"
  | "U.S. Court of Appeals for the Sixth Circuit" => some "6"
  | "U.S. Court of Appeals for the Tenth Circuit" => some "10"
  | "U.S. Court of Appeals for the Third Circuit" => some "3"
  | "U.S. Court of International Trade" => some "CIT"
  | _ => none

/-- Gregorian leap-year rule, as validated by datetime. -/
def isLeapYear (y : Nat) : Bool :=
  (y % 4 == 0 && y % 100 != 0) || y % 400 == 0

/-- Days in a month, as validated by the datetime constructor. -/
def daysInMonth (y m : Nat) : Nat :=
  if m = 2 then (if isLeapYear y then 29 else 28)
  else if m = 4 ∨ m = 6 ∨ m = 9 ∨ m = 11 then 30
  else 31

/-- Split a character list at every occurrence of `sep` (the pieces do
not contain `sep`; n separators yield n+1 pieces).  Character-list
counterpart of splitting a string at a one-character separator, written
structurally so that proofs can compute with it. -/
def splitOnChar (sep : Char) : List Char → List (List Char)
  | [] => [[]]
  | c :: cs =>
    match splitOnChar sep cs with
    | [] => [[]]
    | w :: ws => if c = sep then [] :: w :: ws else (c :: w) :: ws

/-- Numeric value of a list of ASCII digit characters. -/
def digitsVal (l : List Char) : Nat :=
  l.foldl (fun acc c => acc * 10 + (c.toNat - 48)) 0

/-- `datetime.strptime(text, pYMD)`: a 4-digit year, a dash, a 1-2 digit
month in 1..12, a dash, a 1-2 digit day valid for that month and year;
the whole string must be consumed, and the year must be at least 1
(datetime.MINYEAR).  Returns the (year, month, day) triple on success,
`none` on the ValueError path. -/
def strptimeYMD (text : String) : Option (Nat × Nat × Nat) :=
  match splitOnChar '-' text.data with
  | [ys, ms, ds] =>
    if ys.length = 4 ∧ ys.all Char.isDigit
        ∧ ms.length ≠ 0 ∧ ms.length ≤ 2 ∧ ms.all Char.isDigit
        ∧ ds.length ≠ 0 ∧ ds.length ≤ 2 ∧ ds.all Char.isDigit then
      let y := digitsVal ys
      let m := digitsVal ms
      let d := digitsVal ds
      if 0 < y ∧ 0 < m ∧ m ≤ 12 ∧ 0 < d ∧ d ≤ daysInMonth y m then
        some (y, m, d)
      else none
    else none
  | _ => none

/-- Lines 55-69, `get_year`: try `strptime(text, pYMD)` and return the
year.  The first except-branch (line 62) calls `datetime.stpftime`, a
method that does not exist, on `text[0:3]`; the AttributeError it raises
is swallowed by the inner bare except, so the fallback can never produce
a date and every string the primary parse rejects yields None. -/
def get_year (text : String) : Option Nat :=
  match strptimeYMD text with
  | some (y, _, _) => some y
  | none => none

/-- An anchored prefix match, the meaning of `re.search` with a pattern
anchored by a caret: `p` is an initial segment of `s`.  Implemented on
character lists so that proofs can compute with it. -/
def strStarts (s p : String) : Bool := p.data.isPrefixOf s.data

/-- Drop the first `n` characters, the meaning of the anchored `re.sub`
with an n-character matched prefix. -/
def strDrop (s : String) (n : Nat) : String := ⟨s.data.drop n⟩

/-- Lines 90-97: resolve the Party cell before the ternary mapping.  If
the raw value starts with the literal token None or is empty, and the
previous judge identifier equals the current one, copy the previous
Party cell (failing like the KeyError of line 93 when that key is
absent); otherwise keep the raw string. -/
def resolveParty (prev : PrevComm) (judge praw : String) : Option PVal :=
  if strStarts praw "None" ∨ praw.length = 0 then
    if prev.judge = judge then prev.party
    else some (PVal.pstr praw)
  else some (PVal.pstr praw)

/-- Lines 98-106: map the resolved Party cell to the ternary.  The
comparisons are string equalities, so an int or None cell (as inherited
from a previous record) compares unequal and falls to None. -/
def mapParty : PVal → PVal
  | PVal.pstr s =>
      if s = "Democratic" then PVal.pint 1
      else if s = "Republican" then PVal.pint 0
      else PVal.pnone
  | _ => PVal.pnone

/-- Lines 107-111: the start-date text is the Commission Date unless it
is empty, in which case the Recess Appointment Date. -/
def startDateText (cdate rdate : String) : String :=
  if cdate.length = 0 then rdate else cdate

/-- Lines 117-137: the exception and alias block, applied to a
commission that has a nonempty circuit and a start date.  Returns the
ordered list of written rows and the commission object as it stands
after the block (the Porfilio and King branches mutate it, and line 138
stores the mutated dict as the next previous commission). -/
def expandExceptions (c : Commission) : List Commission × Commission :=
  if c.judge = "Porfilio< John Carbone" then
    let alt := { c with judge := "Moore< John", endYear := some 1996 }
    let c2 := { c with startYear := some (some 1996) }
    ([c2, alt], c2)
  else if c.judge = "King< Carolyn Dineen" then
    let alt := { c with judge := "Randall< Carolyn", endYear := some 1988 }
    let c2 := { c with startYear := some (some 1988) }
    ([c2, alt], c2)
  else if strStarts c.judge "Van " then
    ([c, { c with judge := strDrop c.judge 4 }], c)
  else if strStarts c.judge "O\x27" then
    ([c, { c with judge := strDrop c.judge 2 }], c)
  else ([c], c)

/-- One iteration of the loop of lines 82-138: the rows written for this
input row (in order) and the commission stored as the next previous
state.  `none` models an uncaught exception: a KeyError from a missing
column on a `row[k]` access, or the KeyError of line 93. -/
def processRow (prev : PrevComm) (row : Row) (now : Nat) :
    Option (List Commission × Commission) :=
  match row.judgeName, row.seatID, row.courtName, row.party with
  | some name, some seat, some court, some praw =>
    let judge := normName name
    let circuit := (courtMap court).getD ""
    match resolveParty prev judge praw with
    | none => none
    | some pv =>
      let party := mapParty pv
      let cdate := row.commissionDate.getD ""
      let rdate := row.recessDate.getD ""
      let sdt := startDateText cdate rdate
      if 0 < sdt.length then
        match row.terminationDate with
        | none => none
        | some tdate =>
          let c : Commission :=
            ⟨judge, seat, circuit, party,
              some (get_year sdt), some ((get_year tdate).getD now)⟩
          if 0 < circuit.length then some (expandExceptions c)
          else some ([], c)
      else
        some ([], ⟨judge, seat, circuit, party, none, none⟩)
  | _, _, _, _ => none

/-- The loop over the remaining rows, starting from a given previous
state: the concatenation, in input order, of the rows written for each
input row; `none` when some row raises. -/
def runAux (now : Nat) (prev : PrevComm) : List Row → Option (List Commission)
  | [] => some []
  | r :: rs =>
    match processRow prev r now with
    | none => none
    | some (outs, c) =>
      match runAux now c.toPrev rs with
      | none => none
      | some rest => some (outs ++ rest)

/-- The whole run of `main`: fold the loop over the input rows from the
initial previous state of line 80. -/
def runMain (rows : List Row) (now : Nat) : Option (List Commission) :=
  runAux now pInit rows

/-! ## Concrete rows used in several statements below -/

/-- A fully-populated input row: every column is present in the header,
as in the real FJC export. -/
def mkRow (name seat court praw cdate rdate tdate : String) : Row :=
  ⟨some name, some seat, some court, some praw, some cdate, some rdate,
    some tdate⟩

/-- A first row with a known Democratic appointment (Ninth Circuit). -/
def doeRow1 : Row :=
  ⟨some "Doe, Jane", some "s1",
    some "U.S. Court of Appeals for the Ninth Circuit",
    some "Democratic", some "1990-06-15", some "", some ""⟩

/-- A follow-up row for the same judge with an empty party field. -/
def doeRow2 : Row :=
  ⟨some "Doe, Jane", some "s1",
    some "U.S. Court of Appeals for the Ninth Circuit",
    some "", some "1993-06-15", some "", some ""⟩

/-- The round-trip scenario row of the spec, with the seat left free. -/
def smithRow (seat : String) : Row :=
  ⟨some "Smith, Jane", some seat,
    some "U.S. Court of Appeals for the Second Circuit",
    some "Democratic", some "1995-03-01", some "", some ""⟩

/-- The emitted commission of the round-trip scenario. -/
def smithComm (seat : String) (now : Nat) : Commission :=
  ⟨"Smith< Jane", seat, "2", PVal.pint 1, some (some 1995), some now⟩

/-! ## Claims -/

/-- C1: the claim says that a row with empty or None-prefixed party whose
normalized judge identifier equals the previous record copies the
previous record's resolved ternary Party forward.  The code copies the
previous ternary into the Party cell (line 93) but then re-runs the
string comparisons of lines 101-106 on it; an inherited int 1 or 0
compares unequal to the party names, so the cell always collapses to
None.  Here the first row resolves to Party 1, and the second row, same
judge with empty raw party, resolves to None rather than 1, contradicting
the claim and the module docstring that announces the backfill. -/
theorem c1_backfill_destroyed :
    (runMain [doeRow1, doeRow2] 2026).map (List.map Commission.party)
        = some [PVal.pint 1, PVal.pnone]
      ∧ PVal.pnone ≠ PVal.pint 1 :=
  ⟨rfl, by decide⟩

/-- C2 counterexample: the claim announces the output identifier
Smith<Jane with no space, but line 85 only replaces the comma and keeps
the following space, so the single emitted row carries the identifier
Smith< Jane, which differs from the claimed string. -/
theorem c2_counterexample :
    (runMain [smithRow ""] 2026).map (List.map Commission.judge)
        = some ["Smith< Jane"]
      ∧ ("Smith< Jane" : String) ≠ "Smith<Jane" :=
  ⟨rfl, by decide⟩

/-- C2 amended: for any seat value and processing-time year, the
round-trip row yields exactly one output row with Judge = Smith< Jane
(the comma becomes the separator, the following space is kept),
Circuit 2, Party 1, StartYear 1995 and EndYear the processing-time
year. -/
theorem c2_amended (seat : String) (now : Nat) :
    runMain [smithRow seat] now = some [smithComm seat now] := rfl

/-- C3 counterexample: the claim says only the first comma is replaced
and later commas are left unchanged; line 85 uses str.replace, which
substitutes every occurrence, so a name with two commas has both
replaced. -/
theorem c3_counterexample :
    normName "Smith, John, Jr." = "Smith< John< Jr."
      ∧ normName "Smith, John, Jr." ≠ "Smith< John, Jr." :=
  ⟨rfl, by decide⟩

/-- C3 amended: name normalization replaces every comma of the raw judge
name with the separator, in place: the length is preserved and the
character at each position is unchanged unless it is a comma, which
becomes the separator. -/
theorem c3_amended (s : String) (i : Nat) :
    (normName s).length = s.length
      ∧ (normName s).data[i]? =
          (s.data[i]?).map (fun c => if c = ',' then '<' else c) := by
  obtain ⟨l⟩ := s
  exact ⟨List.length_map l _, List.getElem?_map _ l i⟩

/-- C5: the claim describes a working first-4-characters fallback for
dates that fail the YYYY-MM-DD parse.  Line 62 spells the method
`stpftime` (which does not exist, so the call raises AttributeError
before parsing anything) and slices `text[0:3]` (three characters, not
four); the bare except swallows the error, so the fallback never
produces a year and every string rejected by the primary parse yields
None.  The intended fallback would have recovered 1995 from the inputs
below; the code yields None for all of them. -/
theorem c5_fallback_dead :
    get_year "1995-03-01" = some 1995
      ∧ get_year "1995" = none
      ∧ get_year "1995-06" = none
      ∧ get_year "1995-01-01x" = none :=
  ⟨rfl, rfl, rfl, rfl⟩

/-- C4 counterexample: the claim lists Commission Date and Recess
Appointment Date among the required columns whose absence aborts the
run.  Both are read with `row.get(k, defaultEmpty)` (lines 108-111), so
an input whose header lacks the Commission Date column is processed
without any failure: the row below (Commission Date column absent,
recess date present) is transformed and emitted normally. -/
theorem c4_counterexample :
    runMain [⟨some "Smith, Jane", some "s1",
        some "U.S. Court of Appeals for the Second Circuit",
        some "Democratic", none, some "1995-03-01", some ""⟩] 2026
      = some [⟨"Smith< Jane", "s1", "2", PVal.pint 1,
          some (some 1995), some 2026⟩] := rfl

/-- C4 amended: the columns whose absence is a fatal, unrecovered
failure on the first processed row are Judge Name, Seat ID, Court Name
and Party of Appointing President (direct dict accesses); Termination
Date is fatal only when the row has a nonempty start-date text, because
line 114 is only reached inside that branch.  Commission Date and
Recess Appointment Date are read with a default of the empty string and
are not required: a row with neither column present is processed (and
dropped for lack of a start date) without error. -/
theorem c4_amended :
    (∀ prev row now, row.judgeName = none → processRow prev row now = none)
  ∧ (∀ prev row now, row.seatID = none → processRow prev row now = none)
  ∧ (∀ prev row now, row.courtName = none → processRow prev row now = none)
  ∧ (∀ prev row now, row.party = none → processRow prev row now = none)
  ∧ (∀ prev name seat court praw now pv,
      resolveParty prev (normName name) praw = some pv →
      processRow prev ⟨some name, some seat, some court, some praw,
          none, none, none⟩ now
        = some ([], ⟨normName name, seat, (courtMap court).getD "",
            mapParty pv, none, none⟩))
  ∧ (∀ prev name seat court praw cdate rdate now pv,
      resolveParty prev (normName name) praw = some pv →
      0 < (startDateText cdate rdate).length →
      processRow prev ⟨some name, some seat, some court, some praw,
          some cdate, some rdate, none⟩ now = none) := by
  refine ⟨?_, ?_, ?_, ?_, ?_, ?_⟩
  · intro prev row now h
    obtain ⟨jn, si, cn, pa, cd, rd, td⟩ := row
    cases jn with
    | none => rfl
    | some a => simp at h
  · intro prev row now h
    obtain ⟨jn, si, cn, pa, cd, rd, td⟩ := row
    cases si with
    | none => cases jn <;> rfl
    | some a => simp at h
  · intro prev row now h
    obtain ⟨jn, si, cn, pa, cd, rd, td⟩ := row
    cases cn with
    | none => cases jn <;> cases si <;> rfl
    | some a => simp at h
  · intro prev row now h
    obtain ⟨jn, si, cn, pa, cd, rd, td⟩ := row
    cases pa with
    | none => cases jn <;> cases si <;> cases cn <;> rfl
    | some a => simp at h
  · intro prev name seat court praw now pv hp
    simp [processRow, hp, startDateText]
  · intro prev name seat court praw cdate rdate now pv hp hs
    simp [processRow, hp, hs]

/-- C4 amended, witnessed on concrete rows: a row with no Judge Name key
fails; a row missing the Commission Date, Recess Appointment Date and
Termination Date columns is processed and dropped without error; a row
with a start date but no Termination Date key fails. -/
theorem c4_amended_witness :
    processRow pInit ⟨none, some "s", some "c", some "p", some "",
        some "", some ""⟩ 2026 = none
  ∧ processRow pInit ⟨some "A, B", some "s", some "Nope",
        some "Republican", none, none, none⟩ 2026
      = some ([], ⟨"A< B", "s", "", PVal.pint 0, none, none⟩)
  ∧ processRow pInit ⟨some "A, B", some "s", some "Nope",
        some "Republican", some "1999-01-02", some "", none⟩ 2026 = none :=
  ⟨c4_amended.1 pInit _ 2026 rfl,
   c4_amended.2.2.2.2.1 pInit "A, B" "s" "Nope" "Republican" 2026
     (PVal.pstr "Republican") rfl,
   c4_amended.2.2.2.2.2 pInit "A, B" "s" "Nope" "Republican" "1999-01-02"
     "" 2026 (PVal.pstr "Republican") rfl (by decide)⟩

/-- C6 counterexample: the claim uses the identifier Porfilio<John
Carbone and the alias Moore<John, both without the space that line 85
keeps after the separator.  A raw name Porfilio,John Carbone normalizes
to exactly the identifier the claim names, has a recognized circuit and
a valid start date, and yet is emitted exactly once, unchanged: the
exception of line 119 compares against Porfilio< John Carbone (with the
space) and does not fire. -/
theorem c6_counterexample :
    normName "Porfilio,John Carbone" = "Porfilio<John Carbone"
  ∧ (runMain [mkRow "Porfilio,John Carbone" "s1"
        "U.S. Court of Appeals for the Tenth Circuit" "Republican"
        "1985-06-17" "" ""] 2026).map (List.map Commission.judge)
      = some ["Porfilio<John Carbone"] :=
  ⟨rfl, rfl⟩

/-- C6 amended: a row whose normalized judge identifier is Porfilio<
John Carbone (with the space kept from the raw comma-space name), with
a recognized circuit and a nonempty start-date text, is emitted exactly
twice: first under that identifier with StartYear forced to 1996 and
the computed EndYear, then under the alias Moore< John with the
computed StartYear and EndYear forced to 1996; SeatID, Circuit and
Party are identical between the two rows, and the mutated primary
record is what is carried forward as the previous commission. -/
theorem c6_amended (prev : PrevComm)
    (name seat court praw cdate rdate tdate : String) (now : Nat)
    (pv : PVal) (circ : String)
    (hname : normName name = "Porfilio< John Carbone")
    (hp : resolveParty prev "Porfilio< John Carbone" praw = some pv)
    (hc : courtMap court = some circ)
    (hcl : 0 < circ.length)
    (hs : 0 < (startDateText cdate rdate).length) :
    processRow prev (mkRow name seat court praw cdate rdate tdate) now
      = some ([⟨"Porfilio< John Carbone", seat, circ, mapParty pv,
              some (some 1996), some ((get_year tdate).getD now)⟩,
            ⟨"Moore< John", seat, circ, mapParty pv,
              some (get_year (startDateText cdate rdate)), some 1996⟩],
          ⟨"Porfilio< John Carbone", seat, circ, mapParty pv,
            some (some 1996), some ((get_year tdate).getD now)⟩) := by
  simp [processRow, mkRow, hname, hp, hc, hcl, hs, expandExceptions]

/-- C6 amended, witnessed on the Porfilio row of the FJC data (Tenth
Circuit, commissioned 1985-06-17): both emitted rows are produced with
the forced years. -/
theorem c6_amended_witness :
    processRow pInit (mkRow "Porfilio, John Carbone" "s1"
        "U.S. Court of Appeals for the Tenth Circuit" "Republican"
        "1985-06-17" "" "") 2026
      = some ([⟨"Porfilio< John Carbone", "s1", "10", PVal.pint 0,
              some (some 1996), some 2026⟩,
            ⟨"Moore< John", "s1", "10", PVal.pint 0,
              some (some 1985), some 1996⟩],
          ⟨"Porfilio< John Carbone", "s1", "10", PVal.pint 0,
            some (some 1996), some 2026⟩) :=
  c6_amended pInit "Porfilio, John Carbone" "s1"
    "U.S. Court of Appeals for the Tenth Circuit" "Republican"
    "1985-06-17" "" "" 2026 (PVal.pstr "Republican") "10"
    rfl rfl rfl (by decide) (by decide)

/-- A row that raises nothing and writes nothing only moves the carried
previous state: the run on the whole list equals the run on the tail
from the new state. -/
theorem runAux_cons_drop (now : Nat) (prev : PrevComm) (r : Row)
    (c : Commission) (h : processRow prev r now = some ([], c))
    (rs : List Row) :
    runAux now prev (r :: rs) = runAux now c.toPrev rs := by
  simp only [runAux, h]
  cases hx : runAux now c.toPrev rs <;> simp

/-- C7: a row whose Court Name is not in the 14-entry table gets the
empty circuit code (line 88), fails the emission guard of line 116 in
both the with-start-date and without-start-date branches, and so
contributes zero output rows; line 138 still stores its commission as
the previous state, so the run on any continuation equals the run on
the continuation started from this row's judge and resolved party. -/
theorem c7_unmapped_court (prev : PrevComm)
    (name seat court praw cdate rdate tdate : String) (now : Nat)
    (pv : PVal)
    (hp : resolveParty prev (normName name) praw = some pv)
    (hc : courtMap court = none) :
    ∃ c, processRow prev (mkRow name seat court praw cdate rdate tdate) now
        = some ([], c)
      ∧ c.toPrev = PrevComm.mk (normName name) (some (mapParty pv))
      ∧ ∀ rs, runAux now prev (mkRow name seat court praw cdate rdate tdate :: rs)
          = runAux now (PrevComm.mk (normName name) (some (mapParty pv))) rs := by
  by_cases hs : 0 < (startDateText cdate rdate).length
  · have hpr : processRow prev (mkRow name seat court praw cdate rdate tdate) now
        = some ([], ⟨normName name, seat, "", mapParty pv,
            some (get_year (startDateText cdate rdate)),
            some ((get_year tdate).getD now)⟩) := by
      simp [processRow, mkRow, hp, hc, hs]
    refine ⟨_, hpr, rfl, fun rs => ?_⟩
    exact runAux_cons_drop now prev _ _ hpr rs
  · have hpr : processRow prev (mkRow name seat court praw cdate rdate tdate) now
        = some ([], ⟨normName name, seat, "", mapParty pv, none, none⟩) := by
      simp [processRow, mkRow, hp, hc, hs]
    refine ⟨_, hpr, rfl, fun rs => ?_⟩
    exact runAux_cons_drop now prev _ _ hpr rs

/-- C7, witnessed on a district-court row (a court name outside the
table): nothing is emitted, and the run on the singleton input equals
the empty run from the updated previous state. -/
theorem c7_unmapped_court_witness :
    ∃ c, processRow pInit (mkRow "Doe, Jane" "s1"
          "U.S. District Court for the District of Columbia"
          "Democratic" "1990-06-15" "" "") 2026
        = some ([], c)
      ∧ c.toPrev = PrevComm.mk "Doe< Jane" (some (PVal.pint 1))
      ∧ ∀ rs, runAux 2026 pInit (mkRow "Doe, Jane" "s1"
            "U.S. District Court for the District of Columbia"
            "Democratic" "1990-06-15" "" "" :: rs)
          = runAux 2026 (PrevComm.mk "Doe< Jane" (some (PVal.pint 1))) rs :=
  c7_unmapped_court pInit "Doe, Jane" "s1"
    "U.S. District Court for the District of Columbia"
    "Democratic" "1990-06-15" "" "" 2026 (PVal.pstr "Democratic") rfl rfl

/-- The exception block writes one or two rows, never more. -/
theorem expandExceptions_len (c : Commission) :
    (expandExceptions c).1.length ≤ 2 := by
  unfold expandExceptions
  split
  · simp
  · split
    · simp
    · split
      · simp
      · split <;> simp

/-- Outside the Porfilio and King branches, the exception block leaves
StartYear alone on every written row and on the carried record. -/
theorem expandExceptions_startYear (c : Commission)
    (h1 : c.judge ≠ "Porfilio< John Carbone")
    (h2 : c.judge ≠ "King< Carolyn Dineen") :
    (expandExceptions c).2.startYear = c.startYear
      ∧ ∀ o ∈ (expandExceptions c).1, o.startYear = c.startYear := by
  unfold expandExceptions
  rw [if_neg h1, if_neg h2]
  split
  · refine ⟨rfl, fun o ho => ?_⟩
    simp only [List.mem_cons, List.not_mem_nil, or_false] at ho
    rcases ho with rfl | rfl <;> rfl
  · split
    · refine ⟨rfl, fun o ho => ?_⟩
      simp only [List.mem_cons, List.not_mem_nil, or_false] at ho
      rcases ho with rfl | rfl <;> rfl
    · refine ⟨rfl, fun o ho => ?_⟩
      simp only [List.mem_cons, List.not_mem_nil, or_false] at ho
      subst ho
      rfl

/-- C8 counterexample: the claim says every row with an empty Commission
Date and a nonempty Recess Appointment Date derives StartYear from the
recess date's year.  The Porfilio exception (line 123) then overwrites
the primary row's StartYear with 1996: a Porfilio row recess-appointed
in 1985 is emitted with primary StartYear 1996, not 1985. -/
theorem c8_counterexample :
    (runMain [mkRow "Porfilio, John Carbone" "s1"
          "U.S. Court of Appeals for the Tenth Circuit" "Republican"
          "" "1985-02-03" ""] 2026).map
        (List.map (fun c => (c.judge, c.startYear)))
      = some [("Porfilio< John Carbone", some (some 1996)),
          ("Moore< John", some (some 1985))]
      ∧ get_year "1985-02-03" = some 1985
      ∧ (1996 : Nat) ≠ 1985 :=
  ⟨rfl, rfl, by decide⟩

/-- C8 amended: for a row with empty Commission Date and nonempty
Recess Appointment Date whose judge identifier is not one of the two
forced-year exceptions (Porfilio< John Carbone, King< Carolyn Dineen),
the StartYear of every emitted row and of the carried record is the
recess date's parsed year; and a row with both date fields empty is
dropped (zero output rows) but still becomes the previous commission
used for party backfill on the remaining rows. -/
theorem c8_amended :
    (∀ prev name seat court praw rdate tdate now pv,
      resolveParty prev (normName name) praw = some pv →
      0 < rdate.length →
      normName name ≠ "Porfilio< John Carbone" →
      normName name ≠ "King< Carolyn Dineen" →
      ∃ outs c,
        processRow prev (mkRow name seat court praw "" rdate tdate) now
            = some (outs, c)
          ∧ c.startYear = some (get_year rdate)
          ∧ ∀ o ∈ outs, o.startYear = some (get_year rdate))
  ∧ (∀ prev name seat court praw tdate now pv,
      resolveParty prev (normName name) praw = some pv →
      ∃ c, processRow prev (mkRow name seat court praw "" "" tdate) now
            = some ([], c)
          ∧ c.toPrev = PrevComm.mk (normName name) (some (mapParty pv))
          ∧ ∀ rs, runAux now prev (mkRow name seat court praw "" "" tdate :: rs)
              = runAux now (PrevComm.mk (normName name) (some (mapParty pv))) rs) := by
  constructor
  · intro prev name seat court praw rdate tdate now pv hp hr h1 h2
    have hsd : startDateText "" rdate = rdate := rfl
    by_cases hcl : 0 < ((courtMap court).getD "").length
    · have hpr : processRow prev (mkRow name seat court praw "" rdate tdate) now
          = some (expandExceptions
              ⟨normName name, seat, (courtMap court).getD "", mapParty pv,
                some (get_year rdate), some ((get_year tdate).getD now)⟩) := by
        simp [processRow, mkRow, hp, startDateText, hr, hcl]
      obtain ⟨hy, hall⟩ := expandExceptions_startYear
        ⟨normName name, seat, (courtMap court).getD "", mapParty pv,
          some (get_year rdate), some ((get_year tdate).getD now)⟩ h1 h2
      exact ⟨_, _, hpr, hy, hall⟩
    · have hpr : processRow prev (mkRow name seat court praw "" rdate tdate) now
          = some ([], ⟨normName name, seat, (courtMap court).getD "",
              mapParty pv, some (get_year rdate),
              some ((get_year tdate).getD now)⟩) := by
        simp [processRow, mkRow, hp, startDateText, hr, hcl]
      exact ⟨_, _, hpr, rfl, by simp⟩
  · intro prev name seat court praw tdate now pv hp
    have hpr : processRow prev (mkRow name seat court praw "" "" tdate) now
        = some ([], ⟨normName name, seat, (courtMap court).getD "",
            mapParty pv, none, none⟩) := by
      simp [processRow, mkRow, hp, startDateText]
    exact ⟨_, hpr, rfl, fun rs => runAux_cons_drop now prev _ _ hpr rs⟩

/-- C8 amended, witnessed: a Ninth-Circuit row recess-appointed in 1993
with no commission date starts in 1993 on every emitted row, and a row
with both date fields empty is dropped while updating the carried
state. -/
theorem c8_amended_witness :
    (∃ outs c,
      processRow pInit (mkRow "Doe, Jane" "s1"
            "U.S. Court of Appeals for the Ninth Circuit" "Republican"
            "" "1993-06-15" "") 2026
          = some (outs, c)
        ∧ c.startYear = some (get_year "1993-06-15")
        ∧ ∀ o ∈ outs, o.startYear = some (get_year "1993-06-15"))
  ∧ (∃ c, processRow pInit (mkRow "Doe, Jane" "s1"
            "U.S. Court of Appeals for the Ninth Circuit" "Republican"
            "" "" "") 2026
          = some ([], c)
        ∧ c.toPrev = PrevComm.mk "Doe< Jane" (some (PVal.pint 0))
        ∧ ∀ rs, runAux 2026 pInit (mkRow "Doe, Jane" "s1"
              "U.S. Court of Appeals for the Ninth Circuit" "Republican"
              "" "" "" :: rs)
            = runAux 2026 (PrevComm.mk "Doe< Jane" (some (PVal.pint 0))) rs) :=
  ⟨c8_amended.1 pInit "Doe, Jane" "s1"
      "U.S. Court of Appeals for the Ninth Circuit" "Republican"
      "1993-06-15" "" 2026 (PVal.pstr "Republican") rfl (by decide)
      (by decide) (by decide),
   c8_amended.2 pInit "Doe, Jane" "s1"
      "U.S. Court of Appeals for the Ninth Circuit" "Republican"
      "" 2026 (PVal.pstr "Republican") rfl⟩

/-- Any successful row step writes at most two rows. -/
theorem processRow_len (prev : PrevComm) (row : Row) (now : Nat)
    (res : List Commission × Commission)
    (h : processRow prev row now = some res) :
    res.1.length ≤ 2 := by
  obtain ⟨jn, si, cn, pa, cd, rd, td⟩ := row
  rcases jn with _ | name
  · exact absurd h (by simp [processRow])
  rcases si with _ | seat
  · exact absurd h (by simp [processRow])
  rcases cn with _ | court
  · exact absurd h (by simp [processRow])
  rcases pa with _ | praw
  · exact absurd h (by simp [processRow])
  rcases hrp : resolveParty prev (normName name) praw with _ | pv
  · exact absurd h (by simp [processRow, hrp])
  by_cases hsd : 0 < (startDateText (cd.getD "") (rd.getD "")).length
  · rcases td with _ | tdate
    · exact absurd h (by simp [processRow, hrp, hsd])
    by_cases hcl : 0 < ((courtMap court).getD "").length
    · have h2 : processRow prev ⟨some name, some seat, some court,
          some praw, cd, rd, some tdate⟩ now
          = some (expandExceptions
              ⟨normName name, seat, (courtMap court).getD "", mapParty pv,
                some (get_year (startDateText (cd.getD "") (rd.getD ""))),
                some ((get_year tdate).getD now)⟩) := by
        simp [processRow, hrp, hsd, hcl]
      rw [h2] at h
      obtain rfl := Option.some.inj h
      exact expandExceptions_len _
    · have h2 : processRow prev ⟨some name, some seat, some court,
          some praw, cd, rd, some tdate⟩ now
          = some ([], ⟨normName name, seat, (courtMap court).getD "",
              mapParty pv,
              some (get_year (startDateText (cd.getD "") (rd.getD ""))),
              some ((get_year tdate).getD now)⟩) := by
        simp [processRow, hrp, hsd, hcl]
      rw [h2] at h
      obtain rfl := Option.some.inj h
      simp
  · have h2 : processRow prev ⟨some name, some seat, some court,
        some praw, cd, rd, td⟩ now
        = some ([], ⟨normName name, seat, (courtMap court).getD "",
            mapParty pv, none, none⟩) := by
      simp [processRow, hrp, hsd]
    rw [h2] at h
    obtain rfl := Option.some.inj h
    simp

/-- C9: every successfully processed input row contributes zero, one or
two output rows, and the rows a run writes for earlier input rows
precede all rows written for later input rows: the run on a cons is the
rows of the head followed by the run of the tail from the updated
state. -/
theorem c9_row_bound (prev : PrevComm) (row : Row) (now : Nat)
    (outs : List Commission) (c : Commission)
    (h : processRow prev row now = some (outs, c)) :
    outs.length ≤ 2
      ∧ ∀ rs rest, runAux now c.toPrev rs = some rest →
          runAux now prev (row :: rs) = some (outs ++ rest) := by
  refine ⟨processRow_len prev row now (outs, c) h, fun rs rest hrest => ?_⟩
  simp [runAux, h, hrest]

/-- C9, witnessed on the round-trip row: one row out of one input row,
in order. -/
theorem c9_row_bound_witness :
    ([smithComm "s1" 2026] : List Commission).length ≤ 2
      ∧ runAux 2026 pInit [smithRow "s1"]
          = some ([smithComm "s1" 2026] ++ []) :=
  ⟨(c9_row_bound pInit (smithRow "s1") 2026 [smithComm "s1" 2026]
      (smithComm "s1" 2026) rfl).1,
   (c9_row_bound pInit (smithRow "s1") 2026 [smithComm "s1" 2026]
      (smithComm "s1" 2026) rfl).2 [] [] rfl⟩

/-- C10: when the very first input row has an empty Judge Name and an
empty or None-prefixed Party of Appointing President, its normalized
identifier (the empty string) equals the Judge field of the initial
previous-commission dict of line 80, which has no Party key; the
backfill read of line 93 then raises KeyError and the whole run aborts,
whatever rows follow. -/
theorem c10_first_row_abort (seat court praw cdate rdate tdate : String)
    (rest : List Row) (now : Nat)
    (hp : praw.length = 0 ∨ strStarts praw "None" = true) :
    runMain (mkRow "" seat court praw cdate rdate tdate :: rest) now = none := by
  have hr : resolveParty pInit (normName "") praw = none := by
    rcases hp with h | h <;> simp [resolveParty, pInit, normName, h]
  simp [runMain, runAux, processRow, mkRow, hr]

/-- C10, witnessed: a first row with empty judge name and empty party
aborts the run. -/
theorem c10_first_row_abort_witness :
    runMain [mkRow "" "s1" "U.S. Court of International Trade" ""
        "1990-06-15" "" ""] 2026 = none :=
  c10_first_row_abort "s1" "U.S. Court of International Trade" ""
    "1990-06-15" "" "" [] 2026 (Or.inl rfl)

end FJC
